import Mathlib

/-!
Verification of the streaming conversation synchronization engine of the
openrouter_interface chat client (src/src/App.tsx).

The TypeScript source is shallowly embedded: each definition below
translates one source function (or one cohesive fragment of the
`handleSendMessage` streaming loop) into an executable Lean function.
JavaScript string primitives (`split`, `startsWith`, `slice`, `substring`,
`trim`) are modelled by structural recursion over the string's character
sequence (`String.data`), matching their semantics on the inputs the
client handles.
-/

namespace OpenRouterInterface

/-! ## JavaScript string primitives, modelled over the character sequence -/

/-- Model of JavaScript `s.split(sep)` for a single-character separator
(the source only splits on `"\n"`). -/
def splitOnCharList (sep : Char) : List Char → List (List Char)
  | [] => [[]]
  | c :: cs =>
    match splitOnCharList sep cs with
    | [] => [[]]
    | h :: t => if c = sep then [] :: h :: t else (c :: h) :: t

/-- Model of JavaScript `chunk.split("\n")`. -/
def jsSplitNewline (s : String) : List String :=
  (splitOnCharList '\n' s.data).map String.mk

/-- Model of JavaScript `s.startsWith(pre)`. -/
def jsStartsWith (s pre : String) : Bool :=
  pre.data.isPrefixOf s.data

/-- Model of JavaScript `s.slice(n)` for a nonnegative index. -/
def jsSliceFrom (s : String) (n : Nat) : String :=
  String.mk (s.data.drop n)

/-- Model of JavaScript `s.substring(0, n)`. -/
def jsSubstringTo (s : String) (n : Nat) : String :=
  String.mk (s.data.take n)

/-- Model of JavaScript `s.trim()`. -/
def jsTrim (s : String) : String :=
  String.mk (((s.data.dropWhile Char.isWhitespace).reverse.dropWhile Char.isWhitespace).reverse)

/-! ## Data model (interfaces `Message`, `Chat`, `ChatMetadata`) -/

/-- `role` field of the `Message` interface. -/
inductive Role where
  | user
  | assistant
  | system
deriving DecidableEq, Repr

/-- `messageType` field of the `Message` interface (`"reasoning" | "regular"`).
The TypeScript field is optional; messages created by the handlers under
verification always set it, so it is modelled as total. -/
inductive MessageType where
  | regular
  | reasoning
deriving DecidableEq, Repr

/-- The `Message` interface. The `content` union type (string or text/image
parts) only ever holds a plain string in the send/stream handlers modelled
here, so it is embedded as `String`. -/
structure Message where
  id : String
  role : Role
  content : String
  reasoning : Option String := none
  messageType : MessageType := MessageType.regular
deriving DecidableEq, Repr

/-- The `Chat` interface. -/
structure Chat where
  id : String
  name : String
  messages : List Message
  activePresetIndex : Nat
  created : Nat
deriving DecidableEq, Repr

/-- The `ChatMetadata` interface. -/
structure ChatMetadata where
  id : String
  name : String
  created : Nat
  messageCount : Nat
  lastModified : Nat
deriving DecidableEq, Repr

/-- `hasDefaultName`: tests the chat name against the regex `/^Chat \d+$/`. -/
def hasDefaultName (name : String) : Bool :=
  match name.data with
  | 'C' :: 'h' :: 'a' :: 't' :: ' ' :: ds => !ds.isEmpty && ds.all Char.isDigit
  | _ => false

/-! ## Write coalescer (`createDebouncedSave`) -/

/-- JavaScript `Map.set`: replaces the value in place if the key is present,
otherwise appends a new entry (insertion order preserved). -/
def mapSet {α : Type} (m : List (String × α)) (k : String) (v : α) : List (String × α) :=
  if m.any (fun p => p.1 = k) then
    m.map (fun p => if p.1 = k then (k, v) else p)
  else m ++ [(k, v)]

/-- The `pendingSaves` map after a sequence of `debouncedSaveChat(chatId, chat)`
calls inside one debounce window. -/
def pendingAfter (schedules : List (String × Chat)) : List (String × Chat) :=
  schedules.foldl (fun m s => mapSet m s.1 s.2) []

/-- `executeSave`: on flush every pending entry is written once, under the key
`ORI_chat_` ++ chatId, and the map is cleared. -/
def flushWrites (pending : List (String × Chat)) : List (String × Chat) :=
  pending.map (fun p => ("ORI_chat_" ++ p.1, p.2))

/-! ## Send preparation (`handleSendMessage`, optimistic part) -/

/-- The reasoning strip at the top of `handleSendMessage`:
`activeChat.messages.filter(msg => msg.messageType !== "reasoning")`. -/
def messagesWithoutReasoning (msgs : List Message) : List Message :=
  msgs.filter (fun m => m.messageType ≠ MessageType.reasoning)

/-- The placeholder assistant message appended on send. -/
def assistantPlaceholder (assistantId : String) : Message :=
  { id := assistantId, role := Role.assistant, content := "",
    reasoning := none, messageType := MessageType.regular }

/-- The user message appended on send when `content` is nonempty. -/
def userMessageOf (userId content : String) : Message :=
  { id := userId, role := Role.user, content := content,
    reasoning := none, messageType := MessageType.regular }

/-- `updatedMessages` computed by `handleSendMessage`: strip reasoning
messages, append the user message only when `content` is truthy, always
append the placeholder assistant message. -/
def sendUpdatedMessages (msgs : List Message) (content userId assistantId : String) :
    List Message :=
  if content ≠ "" then
    messagesWithoutReasoning msgs ++ [userMessageOf userId content, assistantPlaceholder assistantId]
  else
    messagesWithoutReasoning msgs ++ [assistantPlaceholder assistantId]

/-- `updatedChatName` computed by `handleSendMessage`:
rename to `content.trim().substring(0, 20)` while the name still matches the
default pattern and the send carries a user message. -/
def sendUpdatedName (chat : Chat) (content : String) : String :=
  if content ≠ "" ∧ hasDefaultName chat.name then jsSubstringTo (jsTrim content) 20
  else chat.name

/-- The optimistic chat update applied by `handleSendMessage` before the
network call. -/
def sendPrepare (chat : Chat) (content userId assistantId : String) : Chat :=
  { chat with
    messages := sendUpdatedMessages chat.messages content userId assistantId,
    name := sendUpdatedName chat content }

/-- `updateChatMetadata`: applies an update to the metadata entry with the
given id and stamps `lastModified`. -/
def updateChatMetadataList (metas : List ChatMetadata) (chatId : String)
    (updates : ChatMetadata → ChatMetadata) (now : Nat) : List ChatMetadata :=
  metas.map (fun meta =>
    if meta.id = chatId then { updates meta with lastModified := now } else meta)

/-- The metadata update issued by `handleSendMessage` right after the
optimistic chat update. -/
def sendMetadataUpdated (metas : List ChatMetadata) (chat : Chat)
    (content userId assistantId : String) (now : Nat) : List ChatMetadata :=
  updateChatMetadataList metas chat.id
    (fun m => { m with
      name := sendUpdatedName chat content,
      messageCount := (sendUpdatedMessages chat.messages content userId assistantId).length })
    now

/-- Looks up the `messageCount` of the metadata entry for a chat id. -/
def metadataCountFor (metas : List ChatMetadata) (chatId : String) : Option Nat :=
  (metas.find? (fun m => decide (m.id = chatId))).map ChatMetadata.messageCount

/-! ## Message-level handlers used by the metadata claims -/

/-- `handleDeleteMessage` on the active chat, paired with its
`updateChatMetadata` call. -/
def deleteMessageUpdate (chat : Chat) (metas : List ChatMetadata)
    (messageId : String) (now : Nat) : Chat × List ChatMetadata :=
  let updatedChat := { chat with messages := chat.messages.filter (fun m => m.id ≠ messageId) }
  (updatedChat,
    updateChatMetadataList metas chat.id
      (fun m => { m with messageCount := updatedChat.messages.length }) now)

/-- `handleAppendMessage`: appends a message whose role alternates with the
last message's role, renames while the default name holds, and updates the
metadata entry. -/
def appendMessageUpdate (chat : Chat) (metas : List ChatMetadata)
    (content newId : String) (now : Nat) : Chat × List ChatMetadata :=
  let newRole :=
    match chat.messages.getLast? with
    | none => Role.user
    | some lastMessage => if lastMessage.role = Role.assistant then Role.user else Role.assistant
  let newMessage : Message :=
    { id := newId, role := newRole, content := content,
      reasoning := none, messageType := MessageType.regular }
  let updatedName :=
    if content ≠ "" ∧ newRole = Role.user ∧ hasDefaultName chat.name then
      jsSubstringTo (jsTrim content) 20
    else chat.name
  let updatedChat :=
    { chat with messages := chat.messages ++ [newMessage], name := updatedName }
  (updatedChat,
    updateChatMetadataList metas chat.id
      (fun m => { m with name := updatedName, messageCount := updatedChat.messages.length }) now)

/-! ## Streaming completion client: chunk decoding (`handleSendMessage` read loop) -/

/-- A typed delta event extracted from one parsed SSE payload
(`parsed.choices[0].delta.content` / `.reasoning`). -/
inductive Delta where
  | answer (text : String)
  | reasoning (text : String)
deriving DecidableEq, Repr

/-- One line of the read loop: lines not starting with `data: ` are ignored,
the `data: ` tag is sliced off, the literal `[DONE]` payload is skipped, and
every other payload goes to the JSON decoder (`decode` stands for
`JSON.parse` followed by the delta-field extraction; a payload it rejects
yields no events). -/
def parseLine (decode : String → List Delta) (line : String) : List Delta :=
  if jsStartsWith line "data: " then
    let data := jsSliceFrom line 6
    if data = "[DONE]" then [] else decode data
  else []

/-- One iteration of the read loop body: `chunk.split("\n")` and in-order
processing of the resulting lines. No partial-line state survives from one
chunk to the next. -/
def parseChunk (decode : String → List Delta) (chunk : String) : List Delta :=
  ((jsSplitNewline chunk).map (parseLine decode)).flatten

/-- The whole read loop over the sequence of network chunks. -/
def processStreamChunks (decode : String → List Delta) (chunks : List String) : List Delta :=
  (chunks.map (parseChunk decode)).flatten

/-! ## Conversation merge engine (`flushUpdate` and the delta handlers) -/

/-- The `streamingMessageRef` identity fields set at send time. -/
structure StreamingRef where
  chatId : String
  messageId : String
deriving DecidableEq, Repr

/-- The engine state during one streaming turn: the active conversation slot
plus the two accumulation buffers local to the read loop. -/
structure EngineState where
  activeChat : Option Chat
  accumulatedContent : String
  accumulatedReasoning : String
deriving DecidableEq, Repr

/-- The reasoning message id carries the recognizable `reasoning-` tag:
`` `reasoning-${uuidv4()}` ``. -/
def reasoningMessageId (rid : String) : String :=
  "reasoning-" ++ rid

/-- The reasoning-kind message created on the first reasoning delta. -/
def reasoningMessage (rid : String) : Message :=
  { id := reasoningMessageId rid, role := Role.assistant, content := "",
    reasoning := some "", messageType := MessageType.reasoning }

/-- The test used by both `flushUpdate` and the reasoning-message lookup:
`msg.messageType === "reasoning" && msg.id.startsWith("reasoning-")`. -/
def isReasoningTagged (m : Message) : Bool :=
  decide (m.messageType = MessageType.reasoning) && jsStartsWith m.id "reasoning-"

/-- The per-message update inside `flushUpdate`'s `setActiveChat` call. -/
def flushMessage (ref : StreamingRef) (finalContent finalReasoning : String)
    (msg : Message) : Message :=
  if msg.id = ref.messageId then { msg with content := msg.content ++ finalContent }
  else if isReasoningTagged msg then
    { msg with reasoning := some ((msg.reasoning.getD "") ++ finalReasoning) }
  else msg

/-- The chat update applied by `flushUpdate`, guarded by the
conversation-identity check `prev.id !== streamingMessageRef.current?.chatId`. -/
def applyFlush (ref : StreamingRef) (finalContent finalReasoning : String)
    (prev : Chat) : Chat :=
  if prev.id ≠ ref.chatId then prev
  else { prev with messages := prev.messages.map (flushMessage ref finalContent finalReasoning) }

/-- `flushUpdate`: when either buffer is nonempty (JavaScript truthiness of
`accumulatedContent || accumulatedReasoning`), apply the buffered text to the
active chat and clear both buffers. -/
def flushUpdate (ref : StreamingRef) (st : EngineState) : EngineState :=
  if st.accumulatedContent ≠ "" ∨ st.accumulatedReasoning ≠ "" then
    { activeChat := st.activeChat.map (applyFlush ref st.accumulatedContent st.accumulatedReasoning),
      accumulatedContent := "", accumulatedReasoning := "" }
  else st

/-- JavaScript `Array.prototype.findIndex`: index of the first match, `-1`
when there is none. -/
def jsFindIndex (p : Message → Bool) (msgs : List Message) : Int :=
  match msgs.findIdx? p with
  | some i => (i : Int)
  | none => -1

/-- The start position JavaScript `splice` derives from a possibly negative
index: negative indices count from the end (clamped at 0), positive ones are
clamped at the length. -/
def jsSpliceStart (len : Nat) (index : Int) : Nat :=
  if index < 0 then ((len : Int) + index).toNat else min index.toNat len

/-- `newMessages.splice(assistantIndex, 0, reasoningMessage)`. -/
def jsSpliceInsert (msgs : List Message) (index : Int) (m : Message) : List Message :=
  List.insertIdx (jsSpliceStart msgs.length index) m msgs

/-- The `setActiveChat` call fired on a reasoning delta: create the
reasoning-kind message immediately before the placeholder assistant message
unless one already exists, under the same conversation-identity guard. -/
def insertReasoningIfMissing (ref : StreamingRef) (rid : String) (prev : Chat) : Chat :=
  if prev.id ≠ ref.chatId then prev
  else if prev.messages.any isReasoningTagged then prev
  else
    let assistantIndex := jsFindIndex (fun m => decide (m.id = ref.messageId)) prev.messages
    { prev with messages := jsSpliceInsert prev.messages assistantIndex (reasoningMessage rid) }

/-- Processing of one delta event inside the read loop: an answer delta with
truthy text accumulates content; a reasoning delta with truthy text
accumulates reasoning and ensures the reasoning message exists. (The 50 ms
timer only schedules `flushUpdate`; when a flush fires is captured by the
grouping in `processTurn`.) -/
def processDelta (ref : StreamingRef) (rid : String) (st : EngineState) (d : Delta) :
    EngineState :=
  match d with
  | Delta.answer t =>
    if t ≠ "" then { st with accumulatedContent := st.accumulatedContent ++ t } else st
  | Delta.reasoning t =>
    if t ≠ "" then
      { st with
        accumulatedReasoning := st.accumulatedReasoning ++ t,
        activeChat := st.activeChat.map (insertReasoningIfMissing ref rid) }
    else st

/-- One batching window: the deltas that arrive before the pending 50 ms
timer fires, followed by that timer's `flushUpdate`. -/
def processGroup (ref : StreamingRef) (rid : String) (st : EngineState)
    (g : List Delta) : EngineState :=
  flushUpdate ref (g.foldl (processDelta ref rid) st)

/-- A whole streaming turn: the deltas grouped into batching windows, each
window flushed by the timer, and the final `flushUpdate()` executed in the
`done` branch of the read loop. -/
def processTurn (ref : StreamingRef) (rid : String) (groups : List (List Delta))
    (st : EngineState) : EngineState :=
  flushUpdate ref (groups.foldl (processGroup ref rid) st)

/-- The answer text carried by a delta (empty for reasoning deltas). -/
def answerText : Delta → String
  | Delta.answer t => t
  | Delta.reasoning _ => ""

/-- The reasoning text carried by a delta (empty for answer deltas). -/
def reasoningText : Delta → String
  | Delta.answer _ => ""
  | Delta.reasoning t => t

/-- Concatenation of all answer-delta texts in arrival order. -/
def answerConcat : List Delta → String
  | [] => ""
  | d :: ds => answerText d ++ answerConcat ds

/-- Concatenation of all reasoning-delta texts in arrival order. -/
def reasoningConcat : List Delta → String
  | [] => ""
  | d :: ds => reasoningText d ++ reasoningConcat ds

/-! ## Turn termination (`try`/`catch`/`finally` around the read loop) -/

/-- The terminal state of a send operation. -/
inductive TurnOutcome where
  | completed
  | aborted
  | failed
deriving DecidableEq, Repr

/-- How the read loop ends: the `done` branch, an `AbortError` thrown by the
aborted fetch, or any other error. -/
inductive TurnEnding where
  | normal
  | abortError
  | failure (message : String)
deriving DecidableEq, Repr

/-- The observable result of a turn: final engine state, terminal outcome,
and whether the failure `alert` was shown. -/
structure TurnResult where
  state : EngineState
  outcome : TurnOutcome
  alertShown : Bool
deriving DecidableEq, Repr

/-- One turn including its termination: on `done` the remaining buffer is
flushed; on `AbortError` the loop stops where it is (`console.log` only); on
any other error the loop stops and the failure `alert` is shown. In every
case the already-applied messages are left in place. -/
def runTurn (ref : StreamingRef) (rid : String) (groups : List (List Delta))
    (ending : TurnEnding) (st : EngineState) : TurnResult :=
  let stMid := groups.foldl (processGroup ref rid) st
  match ending with
  | TurnEnding.normal => ⟨flushUpdate ref stMid, TurnOutcome.completed, false⟩
  | TurnEnding.abortError => ⟨stMid, TurnOutcome.aborted, false⟩
  | TurnEnding.failure _ => ⟨stMid, TurnOutcome.failed, true⟩

/-! ## Conversation list state (`handleSelectChat`, `handleDeleteChat`) -/

/-- The IndexedDB key of a conversation body. -/
def storeKey (chatId : String) : String :=
  "ORI_chat_" ++ chatId

/-- Body lookup in the store (`getItem`). -/
def storeGet (store : List (String × Chat)) (k : String) : Option Chat :=
  (store.find? (fun p => decide (p.1 = k))).map Prod.snd

/-- Body removal from the store (`deleteItem`). -/
def storeDelete (store : List (String × Chat)) (k : String) : List (String × Chat) :=
  store.filter (fun p => p.1 ≠ k)

/-- The application state the chat-list handlers act on. -/
structure AppState where
  store : List (String × Chat)
  chatMetadatas : List ChatMetadata
  activeChat : Option Chat
  activeChatId : Option String
deriving DecidableEq, Repr

/-- `handleSelectChat`: no-op when the chat is already active; otherwise the
outgoing active chat is saved to the store, then the requested body is loaded
and made active (when found). -/
def handleSelectChat (st : AppState) (chatId : String) : AppState :=
  if st.activeChatId = some chatId then st
  else
    let store1 :=
      match st.activeChat with
      | some c => mapSet st.store (storeKey c.id) c
      | none => st.store
    match storeGet store1 (storeKey chatId) with
    | some chat =>
      { st with store := store1, activeChat := some chat, activeChatId := some chatId }
    | none => { st with store := store1 }

/-- `remainingChats.reduce((newest, current) => current.created > newest.created ? current : newest)`. -/
def reduceNewest (head : ChatMetadata) (tail : List ChatMetadata) : ChatMetadata :=
  tail.foldl (fun newest current => if current.created > newest.created then current else newest) head

/-- `handleDeleteChat`: delete the body from the store, drop the metadata
entry, and if the deleted chat was active, select the remaining chat with the
newest creation timestamp (or clear the active chat when none remain). -/
def handleDeleteChat (st : AppState) (chatId : String) : AppState :=
  let store1 := storeDelete st.store (storeKey chatId)
  let metas1 := st.chatMetadatas.filter (fun m => m.id ≠ chatId)
  let st1 := { st with store := store1, chatMetadatas := metas1 }
  if st.activeChatId = some chatId then
    match metas1 with
    | [] => { st1 with activeChat := none, activeChatId := none }
    | m :: ms => handleSelectChat st1 (reduceNewest m ms).id
  else st1

/-! ## Turn context and invariant used by the streaming proofs -/

/-- The fixed data of one streaming turn: the streaming reference, the uuid
part of the reasoning message id, the active chat's non-message fields, the
messages present before the placeholder, and the placeholder itself. -/
structure TurnCtx : Type where
  ref : StreamingRef
  rid : String
  c0 : Chat
  prior : List Message
  amsg : Message

/-- Well-formedness of a turn context, as established by `handleSendMessage`:
the stream belongs to the active chat, the placeholder carries the streaming
message id and is a regular message, the prior messages contain neither the
placeholder id nor a reasoning-tagged message (they were just stripped), and
the fresh reasoning id does not collide with the placeholder id. -/
structure TurnCtxWF (ctx : TurnCtx) : Prop where
  chat_id : ctx.c0.id = ctx.ref.chatId
  amsg_id : ctx.amsg.id = ctx.ref.messageId
  amsg_untagged : isReasoningTagged ctx.amsg = false
  prior_id : ∀ m ∈ ctx.prior, m.id ≠ ctx.ref.messageId
  prior_untagged : ∀ m ∈ ctx.prior, isReasoningTagged m = false
  rid_fresh : reasoningMessageId ctx.rid ≠ ctx.ref.messageId

/-- The invariant maintained by the read loop: `as` (resp. `rs`) is the
concatenation of the answer-delta (resp. reasoning-delta) texts processed so
far; the part not yet applied to the chat sits in the accumulation buffer,
and the reasoning message exists exactly when some nonempty reasoning text
has arrived. -/
def TurnInv (ctx : TurnCtx) (st : EngineState) (as rs : String) : Prop :=
  (∃ ca, as = ca ++ st.accumulatedContent ∧ rs = "" ∧ st.accumulatedReasoning = "" ∧
    st.activeChat = some { ctx.c0 with messages :=
      ctx.prior ++ [{ ctx.amsg with content := ctx.amsg.content ++ ca }] }) ∨
  (∃ ca cr, as = ca ++ st.accumulatedContent ∧ rs = cr ++ st.accumulatedReasoning ∧ rs ≠ "" ∧
    st.activeChat = some { ctx.c0 with messages :=
      ctx.prior ++ [{ reasoningMessage ctx.rid with reasoning := some cr },
                    { ctx.amsg with content := ctx.amsg.content ++ ca }] })

/-! ## Basic lemmas -/

theorem str_append_ne_empty_left {s : String} (t : String) (h : s ≠ "") : s ++ t ≠ "" := by
  intro hc
  apply h
  have hd := congrArg String.data hc
  rw [String.data_append] at hd
  have hs : s.data = [] := (List.append_eq_nil.mp hd).1
  cases s
  simp_all

theorem jsStartsWith_append (p s : String) : jsStartsWith (p ++ s) p = true := by
  simp [jsStartsWith, String.data_append, List.isPrefixOf_iff_prefix]

theorem isReasoningTagged_reasoningMessage (rid : String) (r : Option String) :
    isReasoningTagged { reasoningMessage rid with reasoning := r } = true := by
  simp [isReasoningTagged, reasoningMessage, reasoningMessageId, jsStartsWith_append]

theorem flushMessage_of_id {ref : StreamingRef} {msg : Message}
    (h : msg.id = ref.messageId) (fc fr : String) :
    flushMessage ref fc fr msg = { msg with content := msg.content ++ fc } := by
  simp [flushMessage, h]

theorem flushMessage_of_tagged {ref : StreamingRef} {msg : Message}
    (h1 : msg.id ≠ ref.messageId) (h2 : isReasoningTagged msg = true) (fc fr : String) :
    flushMessage ref fc fr msg = { msg with reasoning := some ((msg.reasoning.getD "") ++ fr) } := by
  simp [flushMessage, h1, h2]

theorem flushMessage_of_other {ref : StreamingRef} {msg : Message}
    (h1 : msg.id ≠ ref.messageId) (h2 : isReasoningTagged msg = false) (fc fr : String) :
    flushMessage ref fc fr msg = msg := by
  simp [flushMessage, h1, h2]

theorem findIdx?_append_singleton {α : Type} {p : α → Bool} (prior : List α) (a : α)
    (hp : ∀ m ∈ prior, p m = false) (ha : p a = true) :
    (prior ++ [a]).findIdx? p = some prior.length := by
  induction prior with
  | nil => simp [List.findIdx?_cons, ha]
  | cons x xs ih =>
    have hx : p x = false := hp x (by simp)
    have ihx := ih (fun m hm => hp m (by simp [hm]))
    simp [List.findIdx?_cons, hx, ihx]

theorem insertIdx_at_length {α : Type} (l : List α) (x y : α) :
    List.insertIdx l.length x (l ++ [y]) = l ++ [x, y] := by
  induction l with
  | nil => rfl
  | cons a as ih => simp [List.insertIdx_succ_cons, ih]

theorem answerConcat_append (xs ys : List Delta) :
    answerConcat (xs ++ ys) = answerConcat xs ++ answerConcat ys := by
  induction xs with
  | nil => simp [answerConcat]
  | cons d ds ih => simp [answerConcat, ih, String.append_assoc]

theorem reasoningConcat_append (xs ys : List Delta) :
    reasoningConcat (xs ++ ys) = reasoningConcat xs ++ reasoningConcat ys := by
  induction xs with
  | nil => simp [reasoningConcat]
  | cons d ds ih => simp [reasoningConcat, ih, String.append_assoc]

/-! ## Invariant preservation for the streaming read loop -/

theorem str_empty_append (s : String) : "" ++ s = s := by
  cases s
  rfl

theorem turnInv_init (ctx : TurnCtx) :
    TurnInv ctx
      { activeChat := some { ctx.c0 with messages := ctx.prior ++ [ctx.amsg] },
        accumulatedContent := "", accumulatedReasoning := "" } "" "" := by
  left
  refine ⟨"", by simp, rfl, rfl, ?_⟩
  have hm : { ctx.amsg with content := ctx.amsg.content ++ "" } = ctx.amsg := by
    cases ctx.amsg
    simp
  rw [hm]

theorem applyFlush_shape_one (ctx : TurnCtx) (W : TurnCtxWF ctx) (ca fc fr : String) :
    applyFlush ctx.ref fc fr
        { ctx.c0 with messages :=
          ctx.prior ++ [{ ctx.amsg with content := ctx.amsg.content ++ ca }] } =
      { ctx.c0 with messages :=
        ctx.prior ++ [{ ctx.amsg with content := ctx.amsg.content ++ (ca ++ fc) }] } := by
  unfold applyFlush
  rw [if_neg (by simp [W.chat_id])]
  simp only [List.map_append]
  congr 1
  · congr 1
    · calc ctx.prior.map (flushMessage ctx.ref fc fr)
          = ctx.prior.map id := by
            apply List.map_congr_left
            intro m hm
            exact flushMessage_of_other (W.prior_id m hm) (W.prior_untagged m hm) fc fr
        _ = ctx.prior := List.map_id ctx.prior
    · rw [List.map_singleton, flushMessage_of_id (by exact W.amsg_id) fc fr]
      simp [String.append_assoc]

theorem applyFlush_shape_two (ctx : TurnCtx) (W : TurnCtxWF ctx) (ca cr fc fr : String) :
    applyFlush ctx.ref fc fr
        { ctx.c0 with messages :=
          ctx.prior ++ [{ reasoningMessage ctx.rid with reasoning := some cr },
                        { ctx.amsg with content := ctx.amsg.content ++ ca }] } =
      { ctx.c0 with messages :=
        ctx.prior ++ [{ reasoningMessage ctx.rid with reasoning := some (cr ++ fr) },
                      { ctx.amsg with content := ctx.amsg.content ++ (ca ++ fc) }] } := by
  unfold applyFlush
  rw [if_neg (by simp [W.chat_id])]
  simp only [List.map_append]
  congr 1
  congr 1
  · calc ctx.prior.map (flushMessage ctx.ref fc fr)
        = ctx.prior.map id := by
          apply List.map_congr_left
          intro m hm
          exact flushMessage_of_other (W.prior_id m hm) (W.prior_untagged m hm) fc fr
      _ = ctx.prior := List.map_id ctx.prior
  · have hrtag := isReasoningTagged_reasoningMessage ctx.rid (some cr)
    have hrid : ({ reasoningMessage ctx.rid with reasoning := some cr } : Message).id ≠
        ctx.ref.messageId := W.rid_fresh
    simp only [List.map_cons, List.map_singleton]
    rw [flushMessage_of_tagged hrid hrtag fc fr,
      flushMessage_of_id (by exact W.amsg_id) fc fr]
    simp [String.append_assoc]

theorem turnInv_flush (ctx : TurnCtx) (W : TurnCtxWF ctx) {st : EngineState} {as rs : String}
    (h : TurnInv ctx st as rs) : TurnInv ctx (flushUpdate ctx.ref st) as rs := by
  unfold flushUpdate
  by_cases hg : st.accumulatedContent ≠ "" ∨ st.accumulatedReasoning ≠ ""
  · rw [if_pos hg]
    rcases h with ⟨ca, has, hrs, haccR, hchat⟩ | ⟨ca, cr, has, hrs, hne, hchat⟩
    · left
      refine ⟨ca ++ st.accumulatedContent, by simpa [String.append_assoc] using has, hrs, rfl, ?_⟩
      rw [hchat]
      simp only [Option.map_some']
      rw [applyFlush_shape_one ctx W ca st.accumulatedContent st.accumulatedReasoning]
    · right
      refine ⟨ca ++ st.accumulatedContent, cr ++ st.accumulatedReasoning,
        by simpa [String.append_assoc] using has,
        by simpa [String.append_assoc] using hrs, hne, ?_⟩
      rw [hchat]
      simp only [Option.map_some']
      rw [applyFlush_shape_two ctx W ca cr st.accumulatedContent st.accumulatedReasoning]
  · rw [if_neg hg]
    exact h

theorem insertReasoning_of_present {ref : StreamingRef} {rid : String} {prev : Chat}
    (h : prev.messages.any isReasoningTagged = true) :
    insertReasoningIfMissing ref rid prev = prev := by
  unfold insertReasoningIfMissing
  by_cases hid : prev.id ≠ ref.chatId
  · rw [if_pos hid]
  · rw [if_neg hid, if_pos h]

theorem insertReasoning_shape_one (ctx : TurnCtx) (W : TurnCtxWF ctx) (ca : String) :
    insertReasoningIfMissing ctx.ref ctx.rid
        { ctx.c0 with messages :=
          ctx.prior ++ [{ ctx.amsg with content := ctx.amsg.content ++ ca }] } =
      { ctx.c0 with messages :=
        ctx.prior ++ [reasoningMessage ctx.rid,
                      { ctx.amsg with content := ctx.amsg.content ++ ca }] } := by
  unfold insertReasoningIfMissing
  rw [if_neg (by simp [W.chat_id])]
  have hnone : (ctx.prior ++ [{ ctx.amsg with content := ctx.amsg.content ++ ca }]).any
      isReasoningTagged = false := by
    rw [List.any_eq_false]
    intro m hm
    rcases List.mem_append.mp hm with hmp | hma
    · simp [W.prior_untagged m hmp]
    · rw [List.mem_singleton.mp hma]
      have := W.amsg_untagged
      simp only [isReasoningTagged] at this ⊢
      simpa using this
  rw [if_neg (by simp [hnone])]
  have hfind : (ctx.prior ++ [{ ctx.amsg with content := ctx.amsg.content ++ ca }]).findIdx?
      (fun (m : Message) => decide (m.id = ctx.ref.messageId)) = some ctx.prior.length := by
    apply findIdx?_append_singleton
    · intro m hm
      simpa using W.prior_id m hm
    · simpa using W.amsg_id
  simp only [jsFindIndex, hfind]
  have hstart : jsSpliceStart (ctx.prior ++
      [{ ctx.amsg with content := ctx.amsg.content ++ ca }]).length
      ((ctx.prior.length : Nat) : Int) = ctx.prior.length := by
    simp [jsSpliceStart, Nat.le_succ]
  simp only [jsSpliceInsert, hstart]
  rw [insertIdx_at_length]

theorem turnInv_step (ctx : TurnCtx) (W : TurnCtxWF ctx) {st : EngineState} {as rs : String}
    (h : TurnInv ctx st as rs) (d : Delta) :
    TurnInv ctx (processDelta ctx.ref ctx.rid st d) (as ++ answerText d) (rs ++ reasoningText d) := by
  cases d with
  | answer t =>
    by_cases ht : t = ""
    · subst ht
      simpa [processDelta, answerText, reasoningText] using h
    · simp only [processDelta, answerText, reasoningText, if_pos ht]
      rcases h with ⟨ca, has, hrs, haccR, hchat⟩ | ⟨ca, cr, has, hrs, hne, hchat⟩
      · exact Or.inl ⟨ca, by simp [has, String.append_assoc], by simp [hrs], haccR, hchat⟩
      · exact Or.inr ⟨ca, cr, by simp [has, String.append_assoc], by simp [hrs], by simp [hne], hchat⟩
  | reasoning t =>
    by_cases ht : t = ""
    · subst ht
      simpa [processDelta, answerText, reasoningText] using h
    · simp only [processDelta, answerText, reasoningText, if_pos ht]
      rcases h with ⟨ca, has, hrs, haccR, hchat⟩ | ⟨ca, cr, has, hrs, hne, hchat⟩
      · right
        refine ⟨ca, "", by simp [has], ?_, ?_, ?_⟩
        · rw [hrs, haccR]
          rw [str_empty_append, str_empty_append]
        · rw [hrs, str_empty_append]
          exact ht
        · rw [hchat]
          simp only [Option.map_some']
          rw [insertReasoning_shape_one ctx W ca]
          have hr : ({ reasoningMessage ctx.rid with reasoning := some "" } : Message) =
              reasoningMessage ctx.rid := by
            simp [reasoningMessage]
          rw [hr]
      · right
        refine ⟨ca, cr, by simp [has], ?_, str_append_ne_empty_left t hne, ?_⟩
        · rw [hrs]
          simp [String.append_assoc]
        · rw [hchat]
          simp only [Option.map_some']
          rw [insertReasoning_of_present]
          rw [List.any_eq_true]
          refine ⟨{ reasoningMessage ctx.rid with reasoning := some cr }, ?_, ?_⟩
          · simp
          · exact isReasoningTagged_reasoningMessage ctx.rid (some cr)

theorem turnInv_fold (ctx : TurnCtx) (W : TurnCtxWF ctx) {st : EngineState} {as rs : String}
    (h : TurnInv ctx st as rs) (g : List Delta) :
    TurnInv ctx (g.foldl (processDelta ctx.ref ctx.rid) st)
      (as ++ answerConcat g) (rs ++ reasoningConcat g) := by
  induction g generalizing st as rs with
  | nil => simpa [answerConcat, reasoningConcat] using h
  | cons d ds ih =>
    have h2 := ih (turnInv_step ctx W h d)
    simpa [answerConcat, reasoningConcat, String.append_assoc] using h2

theorem turnInv_group (ctx : TurnCtx) (W : TurnCtxWF ctx) {st : EngineState} {as rs : String}
    (h : TurnInv ctx st as rs) (g : List Delta) :
    TurnInv ctx (processGroup ctx.ref ctx.rid st g)
      (as ++ answerConcat g) (rs ++ reasoningConcat g) :=
  turnInv_flush ctx W (turnInv_fold ctx W h g)

theorem turnInv_groups (ctx : TurnCtx) (W : TurnCtxWF ctx) {st : EngineState} {as rs : String}
    (h : TurnInv ctx st as rs) (groups : List (List Delta)) :
    TurnInv ctx (groups.foldl (processGroup ctx.ref ctx.rid) st)
      (as ++ answerConcat groups.flatten) (rs ++ reasoningConcat groups.flatten) := by
  induction groups generalizing st as rs with
  | nil => simpa [answerConcat, reasoningConcat] using h
  | cons g gs ih =>
    have h2 := ih (turnInv_group ctx W h g)
    simpa [answerConcat_append, reasoningConcat_append, String.append_assoc] using h2

theorem flushUpdate_clears (ref : StreamingRef) (st : EngineState) :
    (flushUpdate ref st).accumulatedContent = "" ∧
    (flushUpdate ref st).accumulatedReasoning = "" := by
  unfold flushUpdate
  by_cases hg : st.accumulatedContent ≠ "" ∨ st.accumulatedReasoning ≠ ""
  · rw [if_pos hg]
    exact ⟨rfl, rfl⟩
  · rw [if_neg hg]
    push_neg at hg
    exact hg

theorem turn_final_shape (ctx : TurnCtx) (W : TurnCtxWF ctx) (groups : List (List Delta)) :
    (processTurn ctx.ref ctx.rid groups
        { activeChat := some { ctx.c0 with messages := ctx.prior ++ [ctx.amsg] },
          accumulatedContent := "", accumulatedReasoning := "" }).activeChat =
      some { ctx.c0 with messages :=
        ctx.prior ++
          (if reasoningConcat groups.flatten = "" then []
           else [{ reasoningMessage ctx.rid with
                   reasoning := some (reasoningConcat groups.flatten) }]) ++
          [{ ctx.amsg with content := ctx.amsg.content ++ answerConcat groups.flatten }] } := by
  have h1 := turnInv_groups ctx W (turnInv_init ctx) groups
  have h2 := turnInv_flush ctx W h1
  rw [str_empty_append, str_empty_append] at h2
  have hacc := flushUpdate_clears ctx.ref
    (groups.foldl (processGroup ctx.ref ctx.rid)
      { activeChat := some { ctx.c0 with messages := ctx.prior ++ [ctx.amsg] },
        accumulatedContent := "", accumulatedReasoning := "" })
  rcases h2 with ⟨ca, has, hrs, _, hchat⟩ | ⟨ca, cr, has, hrs, hne, hchat⟩
  · rw [hacc.1] at has
    simp only [String.append_empty] at has  -- wait direction
    rw [if_pos hrs]
    subst has
    simpa using hchat
  · rw [hacc.1] at has
    rw [hacc.2] at hrs
    simp only [String.append_empty] at has hrs
    rw [if_neg hne]
    subst has
    subst hrs
    simpa using hchat

theorem str_append_ne_empty_right (s : String) {t : String} (h : t ≠ "") : s ++ t ≠ "" := by
  intro hc
  apply h
  have hd := congrArg String.data hc
  rw [String.data_append] at hd
  have ht : t.data = [] := (List.append_eq_nil.mp hd).2
  cases t
  simp_all

theorem turn_final_shape_trailing (ctx : TurnCtx) (W : TurnCtxWF ctx)
    (groups : List (List Delta)) (g : List Delta) :
    (flushUpdate ctx.ref (g.foldl (processDelta ctx.ref ctx.rid)
        (groups.foldl (processGroup ctx.ref ctx.rid)
          { activeChat := some { ctx.c0 with messages := ctx.prior ++ [ctx.amsg] },
            accumulatedContent := "", accumulatedReasoning := "" }))).activeChat =
      some { ctx.c0 with messages :=
        ctx.prior ++
          (if reasoningConcat (groups.flatten ++ g) = "" then []
           else [{ reasoningMessage ctx.rid with
                   reasoning := some (reasoningConcat (groups.flatten ++ g)) }]) ++
          [{ ctx.amsg with
             content := ctx.amsg.content ++ answerConcat (groups.flatten ++ g) }] } := by
  have h1 := turnInv_groups ctx W (turnInv_init ctx) groups
  have h2 := turnInv_fold ctx W h1 g
  have h3 := turnInv_flush ctx W h2
  rw [str_empty_append, str_empty_append, ← answerConcat_append, ← reasoningConcat_append] at h3
  have hacc := flushUpdate_clears ctx.ref
    (g.foldl (processDelta ctx.ref ctx.rid)
      (groups.foldl (processGroup ctx.ref ctx.rid)
        { activeChat := some { ctx.c0 with messages := ctx.prior ++ [ctx.amsg] },
          accumulatedContent := "", accumulatedReasoning := "" }))
  rcases h3 with ⟨ca, has, hrs, _, hchat⟩ | ⟨ca, cr, has, hrs, hne, hchat⟩
  · rw [hacc.1] at has
    simp only [String.append_empty] at has
    rw [if_pos hrs]
    subst has
    simpa using hchat
  · rw [hacc.1] at has
    rw [hacc.2] at hrs
    simp only [String.append_empty] at has hrs
    rw [if_neg hne]
    subst has
    subst hrs
    simpa using hchat

/-! ## Identity-guard lemmas (stream updates against a different active chat) -/

theorem applyFlush_mismatch {ref : StreamingRef} {c : Chat} (h : c.id ≠ ref.chatId)
    (fc fr : String) : applyFlush ref fc fr c = c := by
  unfold applyFlush
  rw [if_pos h]

theorem flushUpdate_mismatch {ref : StreamingRef} {c : Chat} {st : EngineState}
    (h : c.id ≠ ref.chatId) (hst : st.activeChat = some c) :
    (flushUpdate ref st).activeChat = some c := by
  unfold flushUpdate
  by_cases hg : st.accumulatedContent ≠ "" ∨ st.accumulatedReasoning ≠ ""
  · rw [if_pos hg]
    simp [hst, applyFlush_mismatch h]
  · rw [if_neg hg]
    exact hst

theorem insertReasoning_mismatch {ref : StreamingRef} {rid : String} {c : Chat}
    (h : c.id ≠ ref.chatId) : insertReasoningIfMissing ref rid c = c := by
  unfold insertReasoningIfMissing
  rw [if_pos h]

theorem processDelta_mismatch {ref : StreamingRef} {rid : String} {c : Chat} {st : EngineState}
    (h : c.id ≠ ref.chatId) (hst : st.activeChat = some c) (d : Delta) :
    (processDelta ref rid st d).activeChat = some c := by
  cases d with
  | answer t =>
    by_cases ht : t = "" <;> simp [processDelta, ht, hst]
  | reasoning t =>
    by_cases ht : t = "" <;> simp [processDelta, ht, hst, insertReasoning_mismatch h]

theorem foldl_processDelta_mismatch {ref : StreamingRef} {rid : String} {c : Chat}
    (h : c.id ≠ ref.chatId) (g : List Delta) :
    ∀ st : EngineState, st.activeChat = some c →
      (g.foldl (processDelta ref rid) st).activeChat = some c := by
  induction g with
  | nil => intro st hst; exact hst
  | cons d ds ih =>
    intro st hst
    exact ih (processDelta ref rid st d) (processDelta_mismatch h hst d)

theorem processGroup_mismatch {ref : StreamingRef} {rid : String} {c : Chat} {st : EngineState}
    (h : c.id ≠ ref.chatId) (hst : st.activeChat = some c) (g : List Delta) :
    (processGroup ref rid st g).activeChat = some c :=
  flushUpdate_mismatch h (foldl_processDelta_mismatch h g st hst)

theorem processTurn_mismatch {ref : StreamingRef} {rid : String} {c : Chat}
    (h : c.id ≠ ref.chatId) (groups : List (List Delta)) :
    ∀ st : EngineState, st.activeChat = some c →
      (processTurn ref rid groups st).activeChat = some c := by
  have key : ∀ (gs : List (List Delta)) (st : EngineState), st.activeChat = some c →
      (gs.foldl (processGroup ref rid) st).activeChat = some c := by
    intro gs
    induction gs with
    | nil => intro st hst; exact hst
    | cons g gs ih =>
      intro st hst
      exact ih (processGroup ref rid st g) (processGroup_mismatch h hst g)
  intro st hst
  exact flushUpdate_mismatch h (key groups st hst)

/-! ## Metadata bookkeeping lemmas -/

theorem metadataCountFor_update (metas : List ChatMetadata) (chatId : String)
    (f : ChatMetadata → ChatMetadata) (now : Nat) (hf : ∀ m, (f m).id = m.id) :
    metadataCountFor (updateChatMetadataList metas chatId f now) chatId =
      (metas.find? (fun m => decide (m.id = chatId))).map (fun m => (f m).messageCount) := by
  unfold metadataCountFor updateChatMetadataList
  induction metas with
  | nil => simp
  | cons m ms ih =>
    simp only [List.map_cons]
    by_cases hm : m.id = chatId
    · rw [if_pos hm]
      rw [List.find?_cons_of_pos _ (by simp [hf m, hm]),
        List.find?_cons_of_pos _ (by simp [hm])]
      simp
    · rw [if_neg hm]
      rw [List.find?_cons_of_neg _ (by simp [hm]),
        List.find?_cons_of_neg _ (by simp [hm])]
      exact ih

theorem sendUpdatedMessages_split (msgs : List Message) (content userId assistantId : String) :
    sendUpdatedMessages msgs content userId assistantId =
      (if content ≠ "" then messagesWithoutReasoning msgs ++ [userMessageOf userId content]
       else messagesWithoutReasoning msgs) ++ [assistantPlaceholder assistantId] := by
  unfold sendUpdatedMessages
  by_cases hc : content ≠ "" <;> simp [hc]

/-! ## Claim theorems -/

/-- Claim C1: for every finite sequence of interleaved answer- and
reasoning-deltas received during one streaming turn, however the deltas are
grouped into batching windows, the post-stream placeholder assistant message
content is the concatenation of all answer-delta texts in arrival order, and
the turn's reasoning message (present exactly when some reasoning text
arrived) carries the concatenation of all reasoning-delta texts in arrival
order. -/
theorem streaming_turn_order_preservation
    (ref : StreamingRef) (rid : String) (c0 : Chat) (prior : List Message) (amsg : Message)
    (groups : List (List Delta))
    (hchat : c0.id = ref.chatId)
    (hamsg : amsg.id = ref.messageId)
    (hatag : isReasoningTagged amsg = false)
    (hpid : ∀ m ∈ prior, m.id ≠ ref.messageId)
    (hptag : ∀ m ∈ prior, isReasoningTagged m = false)
    (hrid : reasoningMessageId rid ≠ ref.messageId) :
    (processTurn ref rid groups
        { activeChat := some { c0 with messages := prior ++ [amsg] },
          accumulatedContent := "", accumulatedReasoning := "" }).activeChat =
      some { c0 with messages :=
        prior ++
          (if reasoningConcat groups.flatten = "" then []
           else [{ reasoningMessage rid with
                   reasoning := some (reasoningConcat groups.flatten) }]) ++
          [{ amsg with content := amsg.content ++ answerConcat groups.flatten }] } :=
  turn_final_shape ⟨ref, rid, c0, prior, amsg⟩ ⟨hchat, hamsg, hatag, hpid, hptag, hrid⟩ groups

/-- Witness for C1: a concrete interleaved two-window schedule. -/
theorem streaming_turn_order_preservation_witness :
    (processTurn { chatId := "c1", messageId := "a1" } "r1"
        [[Delta.answer "He", Delta.reasoning "th"], [Delta.answer "llo", Delta.reasoning "ink"]]
        { activeChat := some { id := "c1", name := "hi",
                               messages := [userMessageOf "u1" "hi", assistantPlaceholder "a1"],
                               activePresetIndex := 0, created := 0 },
          accumulatedContent := "", accumulatedReasoning := "" }).activeChat =
      some { id := "c1", name := "hi",
             messages := [userMessageOf "u1" "hi",
               { id := "reasoning-r1", role := Role.assistant, content := "",
                 reasoning := some "think", messageType := MessageType.reasoning },
               { id := "a1", role := Role.assistant, content := "Hello",
                 reasoning := none, messageType := MessageType.regular }],
             activePresetIndex := 0, created := 0 } := by
  have h := streaming_turn_order_preservation { chatId := "c1", messageId := "a1" } "r1"
    { id := "c1", name := "hi",
      messages := [userMessageOf "u1" "hi", assistantPlaceholder "a1"],
      activePresetIndex := 0, created := 0 }
    [userMessageOf "u1" "hi"] (assistantPlaceholder "a1")
    [[Delta.answer "He", Delta.reasoning "th"], [Delta.answer "llo", Delta.reasoning "ink"]]
    (by decide) (by decide) (by decide) (by decide) (by decide) (by decide)
  exact h.trans (by decide)

/-- Claim C5: every streaming update (content flush, reasoning flush,
reasoning-message insertion, and any whole schedule of them) leaves the
active conversation untouched when its id differs from the id recorded for
the in-flight stream. -/
theorem stream_identity_guard
    (ref : StreamingRef) (rid : String) (c : Chat) (st : EngineState)
    (hmism : c.id ≠ ref.chatId) (hst : st.activeChat = some c) :
    (∀ d : Delta, (processDelta ref rid st d).activeChat = some c) ∧
    (flushUpdate ref st).activeChat = some c ∧
    insertReasoningIfMissing ref rid c = c ∧
    ∀ groups : List (List Delta), (processTurn ref rid groups st).activeChat = some c :=
  ⟨fun d => processDelta_mismatch hmism hst d,
   flushUpdate_mismatch hmism hst,
   insertReasoning_mismatch hmism,
   fun groups => processTurn_mismatch hmism groups st hst⟩

/-- Witness for C5: a stream keyed to chat `c1` does not touch an active
chat `c2`. -/
theorem stream_identity_guard_witness :
    (processTurn { chatId := "c1", messageId := "a1" } "r1" [[Delta.answer "hi"]]
        { activeChat := some { id := "c2", name := "other", messages := [],
                               activePresetIndex := 0, created := 0 },
          accumulatedContent := "", accumulatedReasoning := "" }).activeChat =
      some { id := "c2", name := "other", messages := [], activePresetIndex := 0, created := 0 } :=
  (stream_identity_guard { chatId := "c1", messageId := "a1" } "r1"
    { id := "c2", name := "other", messages := [], activePresetIndex := 0, created := 0 }
    { activeChat := some { id := "c2", name := "other", messages := [],
                           activePresetIndex := 0, created := 0 },
      accumulatedContent := "", accumulatedReasoning := "" }
    (by decide) rfl).2.2.2 [[Delta.answer "hi"]]

/-- Claim C6: after a turn applies the answer-deltas `Hel` and `lo` and the
user cancels, the assistant message keeps the content `Hello`, the turn ends
aborted (not failed), and no failure notice is shown. -/
theorem cancellation_preserves_partial_text :
    runTurn { chatId := "c1", messageId := "a1" } "r1"
        [[Delta.answer "Hel"], [Delta.answer "lo"]] TurnEnding.abortError
        { activeChat := some { id := "c1", name := "hi",
                               messages := [userMessageOf "u1" "hi", assistantPlaceholder "a1"],
                               activePresetIndex := 0, created := 0 },
          accumulatedContent := "", accumulatedReasoning := "" } =
      { state := { activeChat := some { id := "c1", name := "hi",
                                        messages := [userMessageOf "u1" "hi",
                                          { id := "a1", role := Role.assistant, content := "Hello",
                                            reasoning := none, messageType := MessageType.regular }],
                                        activePresetIndex := 0, created := 0 },
                   accumulatedContent := "", accumulatedReasoning := "" },
        outcome := TurnOutcome.aborted, alertShown := false } ∧
    TurnOutcome.aborted ≠ TurnOutcome.failed := by
  constructor
  · decide
  · decide

/-- Claim C7: scheduling any nonempty run of snapshots for one chat id
within one debounce window flushes as exactly one persisted write, keyed by
that id and carrying the last scheduled snapshot. -/
theorem coalescer_single_latest_write (i : String) (c : Chat) (cs : List Chat) :
    flushWrites (pendingAfter ((c :: cs).map (fun x => (i, x)))) =
      [("ORI_chat_" ++ i, cs.getLastD c)] := by
  have key : ∀ (ds : List Chat) (d : Chat),
      ds.foldl (fun m x => mapSet m i x) [(i, d)] = [(i, ds.getLastD d)] := by
    intro ds
    induction ds with
    | nil => intro d; simp
    | cons e es ih =>
      intro d
      simp only [List.foldl_cons]
      rw [show mapSet [(i, d)] i e = [(i, e)] from by simp [mapSet]]
      rw [ih e, List.getLastD_cons]
  simp only [pendingAfter, List.map_cons, List.foldl_cons, List.foldl_map]
  rw [show mapSet [] i c = [(i, c)] from by simp [mapSet]]
  rw [key cs c]
  simp [flushWrites]

/-- Witness for C7: two snapshots for the same id collapse to one write of
the second snapshot. -/
theorem coalescer_single_latest_write_witness :
    flushWrites (pendingAfter
        [("i1", { id := "i1", name := "v1", messages := [], activePresetIndex := 0, created := 0 }),
         ("i1", { id := "i1", name := "v2", messages := [], activePresetIndex := 0, created := 0 })]) =
      [("ORI_chat_i1", { id := "i1", name := "v2", messages := [], activePresetIndex := 0, created := 0 })] := by
  have h := coalescer_single_latest_write "i1"
    { id := "i1", name := "v1", messages := [], activePresetIndex := 0, created := 0 }
    [{ id := "i1", name := "v2", messages := [], activePresetIndex := 0, created := 0 }]
  simpa using h

/-- Claim C8: on send, every reasoning-kind message is removed before the
outgoing message list is built, while the remaining regular messages are a
subsequence of the originals (order preserved) and none of them is dropped. -/
theorem send_strips_reasoning (msgs : List Message) (content userId assistantId : String) :
    (∀ m ∈ messagesWithoutReasoning msgs, m.messageType ≠ MessageType.reasoning) ∧
    List.Sublist (messagesWithoutReasoning msgs) msgs ∧
    (∀ m ∈ msgs, m.messageType ≠ MessageType.reasoning → m ∈ messagesWithoutReasoning msgs) ∧
    sendUpdatedMessages msgs content userId assistantId =
      messagesWithoutReasoning msgs ++
        (if content ≠ "" then [userMessageOf userId content, assistantPlaceholder assistantId]
         else [assistantPlaceholder assistantId]) := by
  refine ⟨?_, ?_, ?_, ?_⟩
  · intro m hm
    have := List.mem_filter.mp hm
    simpa using this.2
  · exact List.filter_sublist msgs
  · intro m hm hr
    exact List.mem_filter.mpr ⟨hm, by simpa using hr⟩
  · unfold sendUpdatedMessages
    by_cases hc : content ≠ "" <;> simp [hc]

/-- Witness for C8: a prior reasoning message is stripped, the prior user
and assistant messages survive in order. -/
theorem send_strips_reasoning_witness :
    sendUpdatedMessages
        [userMessageOf "u1" "turn 2",
         { id := "reasoning-r0", role := Role.assistant, content := "",
           reasoning := some "old thoughts", messageType := MessageType.reasoning },
         { id := "a0", role := Role.assistant, content := "prior answer",
           reasoning := none, messageType := MessageType.regular }]
        "next" "u2" "a2" =
      [userMessageOf "u1" "turn 2",
       { id := "a0", role := Role.assistant, content := "prior answer",
         reasoning := none, messageType := MessageType.regular },
       userMessageOf "u2" "next", assistantPlaceholder "a2"] := by
  have h := (send_strips_reasoning
    [userMessageOf "u1" "turn 2",
     { id := "reasoning-r0", role := Role.assistant, content := "",
       reasoning := some "old thoughts", messageType := MessageType.reasoning },
     { id := "a0", role := Role.assistant, content := "prior answer",
       reasoning := none, messageType := MessageType.regular }]
    "next" "u2" "a2").2.2.2
  exact h.trans (by decide)

/-- Claim C9: a chat still carrying a default `Chat <integer>` name is
renamed on send of a nonempty user message to the first 20 characters of the
trimmed message; a chat with a custom name is never renamed by a send. -/
theorem default_name_autorename :
    (sendPrepare { id := "c1", name := "Chat 3", messages := [], activePresetIndex := 0,
                   created := 0 }
        "Hello there, how are you today?" "u1" "a1").name = "Hello there, how are" ∧
    ∀ (cid : String) (msgs : List Message) (idx created : Nat)
      (content userId assistantId : String),
      (sendPrepare { id := cid, name := "My custom chat", messages := msgs,
                     activePresetIndex := idx, created := created }
          content userId assistantId).name = "My custom chat" := by
  constructor
  · decide
  · intro cid msgs idx created content userId assistantId
    have h : hasDefaultName "My custom chat" = false := by decide
    simp [sendPrepare, sendUpdatedName, h]

/-- Witness for C9: the custom-name half at a concrete send. -/
theorem default_name_autorename_witness :
    (sendPrepare { id := "c9", name := "My custom chat", messages := [], activePresetIndex := 0,
                   created := 0 } "Hello" "u" "a").name = "My custom chat" :=
  default_name_autorename.2 "c9" [] 0 0 "Hello" "u" "a"

/-- Claim C3: when the stream ends immediately after a delta arrives (no
timer flush for the trailing window), the end-of-stream `flushUpdate` still
applies it: the final assistant content ends in the trailing answer-delta's
text, and the final reasoning text ends in the trailing (nonempty)
reasoning-delta's text. -/
theorem end_of_stream_flush_completeness
    (ref : StreamingRef) (rid : String) (c0 : Chat) (prior : List Message) (amsg : Message)
    (groups : List (List Delta)) (g : List Delta) (t : String)
    (hchat : c0.id = ref.chatId)
    (hamsg : amsg.id = ref.messageId)
    (hatag : isReasoningTagged amsg = false)
    (hpid : ∀ m ∈ prior, m.id ≠ ref.messageId)
    (hptag : ∀ m ∈ prior, isReasoningTagged m = false)
    (hrid : reasoningMessageId rid ≠ ref.messageId) :
    (∃ chat' m, (flushUpdate ref ((g ++ [Delta.answer t]).foldl (processDelta ref rid)
          (groups.foldl (processGroup ref rid)
            { activeChat := some { c0 with messages := prior ++ [amsg] },
              accumulatedContent := "", accumulatedReasoning := "" }))).activeChat = some chat' ∧
        m ∈ chat'.messages ∧ m.id = ref.messageId ∧ ∃ pre, m.content = pre ++ t) ∧
    (t ≠ "" →
      ∃ chat' m, (flushUpdate ref ((g ++ [Delta.reasoning t]).foldl (processDelta ref rid)
            (groups.foldl (processGroup ref rid)
              { activeChat := some { c0 with messages := prior ++ [amsg] },
                accumulatedContent := "", accumulatedReasoning := "" }))).activeChat = some chat' ∧
          m ∈ chat'.messages ∧ m.id = reasoningMessageId rid ∧
          ∃ pre, m.reasoning = some (pre ++ t)) := by
  have W : TurnCtxWF ⟨ref, rid, c0, prior, amsg⟩ := ⟨hchat, hamsg, hatag, hpid, hptag, hrid⟩
  constructor
  · have h := turn_final_shape_trailing ⟨ref, rid, c0, prior, amsg⟩ W groups (g ++ [Delta.answer t])
    refine ⟨_, { amsg with content := amsg.content ++ answerConcat (groups.flatten ++ (g ++ [Delta.answer t])) }, h, by simp, hamsg, ?_⟩
    refine ⟨amsg.content ++ (answerConcat groups.flatten ++ answerConcat g), ?_⟩
    simp [answerConcat_append, answerConcat, answerText, String.append_assoc]
  · intro ht
    have h := turn_final_shape_trailing ⟨ref, rid, c0, prior, amsg⟩ W groups (g ++ [Delta.reasoning t])
    have hne : reasoningConcat (groups.flatten ++ (g ++ [Delta.reasoning t])) ≠ "" := by
      rw [reasoningConcat_append, reasoningConcat_append]
      exact str_append_ne_empty_right _
        (str_append_ne_empty_right _
          (by simpa [reasoningConcat, reasoningText] using str_append_ne_empty_left "" ht))
    rw [if_neg hne] at h
    refine ⟨_, { reasoningMessage rid with
                 reasoning := some (reasoningConcat (groups.flatten ++ (g ++ [Delta.reasoning t]))) },
      h, by simp, rfl, ?_⟩
    refine ⟨reasoningConcat groups.flatten ++ reasoningConcat g, ?_⟩
    simp [reasoningConcat_append, reasoningConcat, reasoningText, String.append_assoc]

/-- Witness for C3: a stream ending right after the delta `!` keeps it. -/
theorem end_of_stream_flush_completeness_witness :
    ∃ chat' m, (flushUpdate { chatId := "c1", messageId := "a1" }
        (([Delta.answer "Hi"] ++ [Delta.answer "!"]).foldl
          (processDelta { chatId := "c1", messageId := "a1" } "r1")
          (([] : List (List Delta)).foldl
            (processGroup { chatId := "c1", messageId := "a1" } "r1")
            { activeChat := some { id := "c1", name := "hi",
                                   messages := [] ++ [assistantPlaceholder "a1"],
                                   activePresetIndex := 0, created := 0 },
              accumulatedContent := "", accumulatedReasoning := "" }))).activeChat = some chat' ∧
      m ∈ chat'.messages ∧ m.id = "a1" ∧ ∃ pre, m.content = pre ++ "!" :=
  (end_of_stream_flush_completeness { chatId := "c1", messageId := "a1" } "r1"
    { id := "c1", name := "hi", messages := [] ++ [assistantPlaceholder "a1"],
      activePresetIndex := 0, created := 0 }
    [] (assistantPlaceholder "a1") [] [Delta.answer "Hi"] "!"
    (by decide) (by decide) (by decide) (by decide) (by decide) (by decide)).1

/-- Claim C2 (behaviour at a chunk boundary): the read loop splits each raw
chunk on newlines with no carry-over buffer, so when a `data: ` line is
split across two chunk reads, only the truncated first fragment is offered
to the JSON decoder and the remainder line is skipped; the full payload is
decoded only when the same bytes arrive inside one chunk. -/
theorem sse_chunk_split_line_lost (decode : String → List Delta) :
    processStreamChunks decode ["data: \x7b\"cho", "ices\":1\x7d\n"] = decode "\x7b\"cho" ∧
    processStreamChunks decode ["data: \x7b\"choices\":1\x7d\n"] = decode "\x7b\"choices\":1\x7d" := by
  have h1 : jsSplitNewline "data: \x7b\"cho" = ["data: \x7b\"cho"] := by decide
  have h2 : jsSplitNewline "ices\":1\x7d\n" = ["ices\":1\x7d", ""] := by decide
  have h3 : jsStartsWith "data: \x7b\"cho" "data: " = true := by decide
  have h4 : jsSliceFrom "data: \x7b\"cho" 6 = "\x7b\"cho" := by decide
  have h5 : jsStartsWith "ices\":1\x7d" "data: " = false := by decide
  have h6 : jsStartsWith "" "data: " = false := by decide
  have h7 : ("\x7b\"cho" : String) ≠ "[DONE]" := by decide
  have h8 : jsSplitNewline "data: \x7b\"choices\":1\x7d\n" = ["data: \x7b\"choices\":1\x7d", ""] := by
    decide
  have h9 : jsStartsWith "data: \x7b\"choices\":1\x7d" "data: " = true := by decide
  have h10 : jsSliceFrom "data: \x7b\"choices\":1\x7d" 6 = "\x7b\"choices\":1\x7d" := by decide
  have h11 : ("\x7b\"choices\":1\x7d" : String) ≠ "[DONE]" := by decide
  constructor
  · simp [processStreamChunks, parseChunk, parseLine, h1, h2, h3, h4, h5, h6, h7]
  · simp [processStreamChunks, parseChunk, parseLine, h8, h9, h10, h11, h6]

/-- Claim C4 is refuted: after a send whose stream delivers reasoning, the
metadata entry still counts the messages as of send time (2) while the
message list holds one more entry (3), the reasoning message inserted during
streaming. -/
theorem metadata_count_streaming_reasoning_counterexample :
    metadataCountFor
        (sendMetadataUpdated
          [{ id := "c1", name := "Chat 1", created := 0, messageCount := 0, lastModified := 0 }]
          { id := "c1", name := "Chat 1", messages := [], activePresetIndex := 0, created := 0 }
          "hi" "u1" "a1" 5) "c1" = some 2 ∧
    (processTurn { chatId := "c1", messageId := "a1" } "r1"
        [[Delta.reasoning "think", Delta.answer "Hello"]]
        { activeChat := some (sendPrepare
            { id := "c1", name := "Chat 1", messages := [], activePresetIndex := 0, created := 0 }
            "hi" "u1" "a1"),
          accumulatedContent := "", accumulatedReasoning := "" }).activeChat.map
      (fun c => c.messages.length) = some 3 ∧
    metadataCountFor
        (sendMetadataUpdated
          [{ id := "c1", name := "Chat 1", created := 0, messageCount := 0, lastModified := 0 }]
          { id := "c1", name := "Chat 1", messages := [], activePresetIndex := 0, created := 0 }
          "hi" "u1" "a1" 5) "c1" ≠
      (processTurn { chatId := "c1", messageId := "a1" } "r1"
        [[Delta.reasoning "think", Delta.answer "Hello"]]
        { activeChat := some (sendPrepare
            { id := "c1", name := "Chat 1", messages := [], activePresetIndex := 0, created := 0 }
            "hi" "u1" "a1"),
          accumulatedContent := "", accumulatedReasoning := "" }).activeChat.map
      (fun c => c.messages.length) := by
  refine ⟨by decide, by decide, by decide⟩

/-- Claim C4 as amended: append and delete-message update the metadata count
to the new list length; a send sets it to the list length as of send time,
and a turn that streams reasoning leaves the list exactly one longer than
that count (the inserted reasoning message is not counted). -/
theorem metadata_count_per_operation
    (chat : Chat) (metas : List ChatMetadata)
    (content userId assistantId rid delId appendContent newId : String)
    (groups : List (List Delta)) (now : Nat)
    (hfound : (metas.find? (fun m => decide (m.id = chat.id))).isSome = true)
    (hfresh : ∀ m ∈ chat.messages, m.id ≠ assistantId)
    (huser : userId ≠ assistantId)
    (hrid : reasoningMessageId rid ≠ assistantId) :
    metadataCountFor (sendMetadataUpdated metas chat content userId assistantId now) chat.id =
      some (sendUpdatedMessages chat.messages content userId assistantId).length ∧
    (processTurn { chatId := chat.id, messageId := assistantId } rid groups
        { activeChat := some (sendPrepare chat content userId assistantId),
          accumulatedContent := "", accumulatedReasoning := "" }).activeChat.map
        (fun c => c.messages.length) =
      some ((sendUpdatedMessages chat.messages content userId assistantId).length +
        (if reasoningConcat groups.flatten = "" then 0 else 1)) ∧
    metadataCountFor (deleteMessageUpdate chat metas delId now).2 chat.id =
      some (deleteMessageUpdate chat metas delId now).1.messages.length ∧
    metadataCountFor (appendMessageUpdate chat metas appendContent newId now).2 chat.id =
      some (appendMessageUpdate chat metas appendContent newId now).1.messages.length := by
  obtain ⟨m0, hm0⟩ := Option.isSome_iff_exists.mp hfound
  refine ⟨?_, ?_, ?_, ?_⟩
  · have h := metadataCountFor_update metas chat.id
      (fun (m : ChatMetadata) => ({ m with
        name := sendUpdatedName chat content,
        messageCount :=
          (sendUpdatedMessages chat.messages content userId assistantId).length } : ChatMetadata))
      now (fun m => rfl)
    exact h.trans (by rw [hm0]; rfl)
  · have hmsgs := sendUpdatedMessages_split chat.messages content userId assistantId
    have W : TurnCtxWF ⟨{ chatId := chat.id, messageId := assistantId }, rid,
        sendPrepare chat content userId assistantId,
        (if content ≠ "" then messagesWithoutReasoning chat.messages ++ [userMessageOf userId content]
         else messagesWithoutReasoning chat.messages),
        assistantPlaceholder assistantId⟩ := by
      refine ⟨rfl, rfl, by simp [isReasoningTagged, assistantPlaceholder], ?_, ?_, hrid⟩
      · intro m hm
        by_cases hc : content ≠ ""
        · rw [if_pos hc] at hm
          rcases List.mem_append.mp hm with hmp | hmu
          · exact hfresh m (List.mem_filter.mp hmp).1
          · rw [List.mem_singleton.mp hmu]
            exact huser
        · rw [if_neg hc] at hm
          exact hfresh m (List.mem_filter.mp hm).1
      · intro m hm
        by_cases hc : content ≠ ""
        · rw [if_pos hc] at hm
          rcases List.mem_append.mp hm with hmp | hmu
          · have := (List.mem_filter.mp hmp).2
            simp only [isReasoningTagged]
            simp only [decide_eq_true_eq] at this ⊢
            simp [this]
          · rw [List.mem_singleton.mp hmu]
            simp [isReasoningTagged, userMessageOf]
        · rw [if_neg hc] at hm
          have := (List.mem_filter.mp hm).2
          simp only [isReasoningTagged]
          simp only [decide_eq_true_eq] at this ⊢
          simp [this]
    have hshape := turn_final_shape _ W groups
    have hchat0 : ({ sendPrepare chat content userId assistantId with messages :=
        (if content ≠ "" then messagesWithoutReasoning chat.messages ++ [userMessageOf userId content]
         else messagesWithoutReasoning chat.messages) ++ [assistantPlaceholder assistantId] } : Chat) =
        sendPrepare chat content userId assistantId := by
      have : (sendPrepare chat content userId assistantId).messages =
          (if content ≠ "" then messagesWithoutReasoning chat.messages ++ [userMessageOf userId content]
           else messagesWithoutReasoning chat.messages) ++ [assistantPlaceholder assistantId] := hmsgs
      rw [← this]
    rw [hchat0] at hshape
    rw [hshape]
    rw [hmsgs]
    by_cases hrc : reasoningConcat groups.flatten = ""
    · simp [hrc, List.length_append]
    · simp [hrc, List.length_append]
  · have h := metadataCountFor_update metas chat.id
      (fun (m : ChatMetadata) => ({ m with
        messageCount := (chat.messages.filter (fun x => x.id ≠ delId)).length } : ChatMetadata))
      now (fun m => rfl)
    exact h.trans (by rw [hm0]; rfl)
  · have h := metadataCountFor_update metas chat.id
      (fun (m : ChatMetadata) => ({ m with
        name :=
          if appendContent ≠ "" ∧
              (match chat.messages.getLast? with
               | none => Role.user
               | some lastMessage =>
                 if lastMessage.role = Role.assistant then Role.user else Role.assistant) =
                Role.user ∧
              hasDefaultName chat.name then
            jsSubstringTo (jsTrim appendContent) 20
          else chat.name,
        messageCount := (chat.messages ++
          [({ id := newId,
              role :=
                match chat.messages.getLast? with
                | none => Role.user
                | some lastMessage =>
                  if lastMessage.role = Role.assistant then Role.user else Role.assistant,
              content := appendContent, reasoning := none,
              messageType := MessageType.regular } : Message)]).length } : ChatMetadata))
      now (fun m => rfl)
    exact h.trans (by rw [hm0]; rfl)

/-- Witness for the amended C4: one concrete chat, metadata entry, and a
one-window reasoning stream. -/
theorem metadata_count_per_operation_witness :
    metadataCountFor
        (sendMetadataUpdated
          [{ id := "c1", name := "Chat 1", created := 0, messageCount := 0, lastModified := 0 }]
          { id := "c1", name := "Chat 1", messages := [], activePresetIndex := 0, created := 0 }
          "hi" "u1" "a1" 7) "c1" =
      some (sendUpdatedMessages [] "hi" "u1" "a1").length ∧
    (processTurn { chatId := "c1", messageId := "a1" } "r1" [[Delta.reasoning "mm"]]
        { activeChat := some (sendPrepare
            { id := "c1", name := "Chat 1", messages := [], activePresetIndex := 0, created := 0 }
            "hi" "u1" "a1"),
          accumulatedContent := "", accumulatedReasoning := "" }).activeChat.map
        (fun c => c.messages.length) =
      some ((sendUpdatedMessages [] "hi" "u1" "a1").length +
        (if reasoningConcat ([[Delta.reasoning "mm"]] : List (List Delta)).flatten = "" then 0
         else 1)) :=
  have h := metadata_count_per_operation
    { id := "c1", name := "Chat 1", messages := [], activePresetIndex := 0, created := 0 }
    [{ id := "c1", name := "Chat 1", created := 0, messageCount := 0, lastModified := 0 }]
    "hi" "u1" "a1" "r1" "d1" "app" "n1" [[Delta.reasoning "mm"]] 7
    (by decide) (by decide) (by decide) (by decide)
  ⟨h.1, h.2.1⟩

/-- Claim C10 (behaviour shown at a failing input): deleting the active chat
`b` drops its metadata entry and activates the remaining chat with the
newest creation time, but `handleSelectChat`'s save-before-switch step
writes the deleted chat's body back into the store, so the body entry is
present again after the operation. -/
theorem delete_active_chat_resurrects_body :
    handleDeleteChat
        { store := [("ORI_chat_a",
                     { id := "a", name := "A", messages := [], activePresetIndex := 0, created := 1 }),
                    ("ORI_chat_b",
                     { id := "b", name := "B", messages := [], activePresetIndex := 0, created := 2 })],
          chatMetadatas := [{ id := "a", name := "A", created := 1, messageCount := 0, lastModified := 0 },
                            { id := "b", name := "B", created := 2, messageCount := 0, lastModified := 0 }],
          activeChat := some { id := "b", name := "B", messages := [], activePresetIndex := 0,
                               created := 2 },
          activeChatId := some "b" } "b" =
      { store := [("ORI_chat_a",
                   { id := "a", name := "A", messages := [], activePresetIndex := 0, created := 1 }),
                  ("ORI_chat_b",
                   { id := "b", name := "B", messages := [], activePresetIndex := 0, created := 2 })],
        chatMetadatas := [{ id := "a", name := "A", created := 1, messageCount := 0, lastModified := 0 }],
        activeChat := some { id := "a", name := "A", messages := [], activePresetIndex := 0,
                             created := 1 },
        activeChatId := some "a" } ∧
    storeGet (handleDeleteChat
        { store := [("ORI_chat_a",
                     { id := "a", name := "A", messages := [], activePresetIndex := 0, created := 1 }),
                    ("ORI_chat_b",
                     { id := "b", name := "B", messages := [], activePresetIndex := 0, created := 2 })],
          chatMetadatas := [{ id := "a", name := "A", created := 1, messageCount := 0, lastModified := 0 },
                            { id := "b", name := "B", created := 2, messageCount := 0, lastModified := 0 }],
          activeChat := some { id := "b", name := "B", messages := [], activePresetIndex := 0,
                               created := 2 },
          activeChatId := some "b" } "b").store (storeKey "b") =
      some { id := "b", name := "B", messages := [], activePresetIndex := 0, created := 2 } := by
  refine ⟨by decide, by decide⟩

end OpenRouterInterface

